import Mathlib

/-!
Verification of the water-map generator (`generate_water_map.py`).

The program converts a grayscale height map into a binary water mask:
it normalizes the decoded image to an 8-bit intensity grid, thresholds
it (intensity strictly below the threshold becomes water = 255, else
land = 0), optionally smooths the mask with a Gaussian blur, and writes
the result next to the input under `derived-watermaps/`.

Embedding conventions:
* Grids are `List (List ℕ)` of pixel values (row-major), matching the
  2-D numpy arrays of the source.
* numpy float32/float64 arithmetic is modelled as exact rational
  arithmetic over `ℚ`; the final `.astype(np.uint8)` cast truncates
  toward zero, which for the nonnegative quantities involved is the
  floor.  The Gaussian kernel weights and radius that scipy computes
  internally in floating point are abstracted as parameters
  (`w : ℚ → ℤ → ℚ`, `r : ℚ → ℕ`, indexed by sigma).
* File-system paths are lists of path components; `Path.parent` drops
  the last component.
-/

namespace WaterMapGen

/-- A 2-D pixel grid, row-major, as decoded by `np.array(img)`. -/
abbrev Grid := List (List ℕ)

/-- Look up the pixel at row `i`, column `j`. -/
def gridGetN (g : Grid) (i j : ℕ) : Option ℕ :=
  (g[i]?).bind (fun row => row[j]?)

/-- The shape of a grid: the list of its row lengths. -/
def shape (g : List (List α)) : List ℕ := g.map List.length

/-! ### Water Classifier — thresholding

Source, `generate_water_map.py` line 75:
`water_map = (pixels < threshold).astype(np.uint8) * 255`.
The comparison of a `uint8` pixel with the Python `int` threshold is an
exact integer comparison, so the threshold is modelled as `ℤ`. -/

/-- One cell of `(pixels < threshold).astype(np.uint8) * 255`. -/
def thresholdPixel (t : ℤ) (v : ℕ) : ℕ :=
  if (v : ℤ) < t then 255 else 0

/-- `water_map = (pixels < threshold).astype(np.uint8) * 255` (line 75). -/
def waterMap (t : ℤ) (g : Grid) : Grid :=
  g.map (fun row => row.map (thresholdPixel t))

theorem gridGetN_waterMap (t : ℤ) (g : Grid) (i j : ℕ) (v : ℕ)
    (h : gridGetN g i j = some v) :
    gridGetN (waterMap t g) i j = some (thresholdPixel t v) := by
  unfold gridGetN at h ⊢
  unfold waterMap
  rw [List.getElem?_map]
  cases hrow : g[i]? with
  | none => simp [hrow] at h
  | some row =>
    simp only [hrow, Option.map_some'] at h ⊢
    simp only [Option.some_bind] at h ⊢
    rw [List.getElem?_map, h, Option.map_some']

/-- **C1.** For every intensity grid and every threshold `t`, the
thresholded grid holds 255 at a cell iff the corresponding intensity
`v` satisfies `v < t` (strict), and 0 otherwise; `t = 0` classifies no
cell as water, and `t = 255` classifies intensities `0..254` as water
and only intensity 255 as land. -/
theorem thresholding_strict_less (t : ℤ) (g : Grid) (i j : ℕ) (v : ℕ)
    (h : gridGetN g i j = some v) :
    gridGetN (waterMap t g) i j = some (thresholdPixel t v) ∧
    (thresholdPixel t v = 255 ↔ (v : ℤ) < t) ∧
    (thresholdPixel t v = 0 ↔ ¬ (v : ℤ) < t) ∧
    thresholdPixel 0 v = 0 ∧
    (v ≤ 254 → thresholdPixel 255 v = 255) ∧
    thresholdPixel 255 255 = 0 := by
  refine ⟨gridGetN_waterMap t g i j v h, ?_, ?_, ?_, ?_, ?_⟩
  · unfold thresholdPixel
    split <;> simp_all
  · unfold thresholdPixel
    split <;> simp_all
  · unfold thresholdPixel
    split
    · omega
    · rfl
  · intro hv
    unfold thresholdPixel
    split
    · rfl
    · omega
  · decide

/-- Witness for C1 at the grid `[[10]]` with threshold 40. -/
theorem thresholding_strict_less_witness :
    gridGetN (waterMap 40 [[10]]) 0 0 = some (thresholdPixel 40 10) ∧
    (thresholdPixel 40 10 = 255 ↔ (10 : ℤ) < 40) ∧
    (thresholdPixel 40 10 = 0 ↔ ¬ (10 : ℤ) < 40) ∧
    thresholdPixel 0 10 = 0 ∧
    (10 ≤ 254 → thresholdPixel 255 10 = 255) ∧
    thresholdPixel 255 255 = 0 :=
  thresholding_strict_less 40 [[10]] 0 0 10 rfl

/-- **C3.** Immediately after thresholding, every cell of the Binary
Water Grid is 0 or 255, for every intensity grid and threshold. -/
theorem thresholded_values_binary (t : ℤ) (g : Grid) (row : List ℕ)
    (v : ℕ) (hrow : row ∈ waterMap t g) (hv : v ∈ row) :
    v = 0 ∨ v = 255 := by
  unfold waterMap at hrow
  obtain ⟨row₀, _, rfl⟩ := List.mem_map.1 hrow
  obtain ⟨v₀, _, rfl⟩ := List.mem_map.1 hv
  unfold thresholdPixel
  split
  · right; rfl
  · left; rfl

/-- Witness for C3 at the grid `[[10]]` with threshold 40. -/
theorem thresholded_values_binary_witness : (255 : ℕ) = 0 ∨ (255 : ℕ) = 255 :=
  thresholded_values_binary 40 [[10]] [255] 255 (by decide) (by decide)

/-! ### Image Normalizer — 16-bit branch

Source, lines 61–67:
```
if img.mode == 'I' or img.mode == 'I;16':
    pixels_16bit = np.array(img, dtype=np.uint16)
    if pixels_16bit.max() > 0:
        pixels = (pixels_16bit.astype(np.float32) / pixels_16bit.max() * 255).astype(np.uint8)
    else:
        pixels = pixels_16bit.astype(np.uint8)
```
The float32 quotient `p / max * 255` is modelled exactly over `ℚ`; the
`.astype(np.uint8)` cast truncates toward zero, which on the
nonnegative quantity `p / max * 255 ∈ [0, 255]` is `⌊p * 255 / max⌋`,
i.e. natural-number division `p * 255 / max`.  The `uint16 → uint8`
cast of the all-zero branch reduces modulo 256. -/

/-- `pixels_16bit.max()` (line 64): the maximum pixel of the grid. -/
def max16 (g : Grid) : ℕ :=
  (g.map (fun row => row.foldr max 0)).foldr max 0

/-- The 16-bit → 8-bit normalization of lines 64–67. -/
def normalize16 (g : Grid) : Grid :=
  if 0 < max16 g then
    g.map (fun row => row.map (fun p => p * 255 / max16 g))
  else
    g.map (fun row => row.map (fun p => p % 256))

/-- The normalizer as the spec words it (claim C2): `round(p / max16 * 255)`
for a positive maximum, 0 everywhere for an all-zero image. -/
def normalize16Spec (g : Grid) : Grid :=
  if 0 < max16 g then
    g.map (fun row => row.map (fun p : ℕ => (round ((p : ℚ) / max16 g * 255)).toNat))
  else
    g.map (fun row => row.map (fun _ => 0))

theorem gridGetN_map (f : ℕ → ℕ) (g : Grid) (i j : ℕ) (v : ℕ)
    (h : gridGetN g i j = some v) :
    gridGetN (g.map (fun row => row.map f)) i j = some (f v) := by
  unfold gridGetN at h ⊢
  rw [List.getElem?_map]
  cases hrow : g[i]? with
  | none => simp [hrow] at h
  | some row =>
    simp only [hrow, Option.map_some'] at h ⊢
    simp only [Option.some_bind] at h ⊢
    rw [List.getElem?_map, h, Option.map_some']

theorem foldr_max_le_of_mem {l : List ℕ} {v : ℕ} (h : v ∈ l) :
    v ≤ l.foldr max 0 := by
  induction l with
  | nil => cases h
  | cons a l ih =>
    rcases List.mem_cons.1 h with rfl | h'
    · exact le_max_left _ _
    · exact le_trans (ih h') (le_max_right _ _)

theorem le_max16 {g : Grid} {i j v : ℕ} (h : gridGetN g i j = some v) :
    v ≤ max16 g := by
  unfold gridGetN at h
  cases hrow : g[i]? with
  | none => simp [hrow] at h
  | some row =>
    simp only [hrow, Option.some_bind] at h
    have hv : v ∈ row := List.getElem?_mem h
    have hrm : row ∈ g := List.getElem?_mem hrow
    have h₁ : v ≤ row.foldr max 0 := foldr_max_le_of_mem hv
    have h₂ : row.foldr max 0 ≤ max16 g :=
      foldr_max_le_of_mem (List.mem_map_of_mem _ hrm)
    exact le_trans h₁ h₂

/-- **C7.** An all-zero 16-bit image maps to an all-zero 8-bit grid, and
when the maximum `M` is positive, every pixel holding `M` maps to 255. -/
theorem normalize16_extremes (g : Grid) (i j v : ℕ)
    (h : gridGetN g i j = some v) :
    (max16 g = 0 → gridGetN (normalize16 g) i j = some 0) ∧
    (0 < max16 g → v = max16 g → gridGetN (normalize16 g) i j = some 255) := by
  constructor
  · intro hm
    have hv : v = 0 := by
      have := le_max16 h
      omega
    unfold normalize16
    rw [if_neg (by omega)]
    have := gridGetN_map (fun p => p % 256) g i j v h
    simpa [hv] using this
  · intro hm hv
    unfold normalize16
    rw [if_pos hm]
    have := gridGetN_map (fun p => p * 255 / max16 g) g i j v h
    rw [this]
    congr 1
    show v * 255 / max16 g = 255
    subst hv
    rw [Nat.mul_comm]
    exact Nat.mul_div_cancel 255 hm

/-- Witness for C7: the all-zero grid `[[0]]` and the grid `[[2, 1]]`
whose maximum 2 maps to 255. -/
theorem normalize16_extremes_witness :
    gridGetN (normalize16 [[0]]) 0 0 = some 0 ∧
    gridGetN (normalize16 [[2, 1]]) 0 0 = some 255 :=
  ⟨(normalize16_extremes [[0]] 0 0 0 rfl).1 rfl,
   (normalize16_extremes [[2, 1]] 0 0 2 rfl).2 (by decide) rfl⟩

/-- **C2, counterexample.** On the grid `[[1, 2]]` (maximum 2) the code
truncates `1 / 2 * 255 = 127.5` to 127, while the spec's
`round(p / max16 * 255)` gives 128. -/
theorem normalize16_rounds_counterexample :
    normalize16 [[1, 2]] = [[127, 255]] ∧
    normalize16Spec [[1, 2]] = [[128, 255]] ∧
    normalize16 [[1, 2]] ≠ normalize16Spec [[1, 2]] := by
  have h1 : normalize16 [[1, 2]] = [[127, 255]] := by decide
  have h2 : normalize16Spec [[1, 2]] = [[128, 255]] := by
    have hm : max16 [[1, 2]] = 2 := by decide
    unfold normalize16Spec
    rw [hm]
    norm_num [round_eq]
    omega
  exact ⟨h1, h2, by rw [h1, h2]; decide⟩

/-- **C2, amended.** For a 16-bit grid with positive maximum, each pixel
`p` maps to `⌊p / max16 * 255⌋` — the quotient scaled to `[0, 255]`
truncated toward zero, not rounded to nearest; an all-zero image maps
every pixel to 0. -/
theorem normalize16_truncates (g : Grid) (i j p : ℕ)
    (h : gridGetN g i j = some p) :
    (0 < max16 g →
      gridGetN (normalize16 g) i j = some (p * 255 / max16 g) ∧
      p * 255 / max16 g = ⌊(p : ℚ) / max16 g * 255⌋₊) ∧
    (max16 g = 0 → gridGetN (normalize16 g) i j = some 0) := by
  constructor
  · intro hm
    constructor
    · unfold normalize16
      rw [if_pos hm]
      exact gridGetN_map (fun q => q * 255 / max16 g) g i j p h
    · rw [div_mul_eq_mul_div,
        show ((p : ℚ) * 255) = ((p * 255 : ℕ) : ℚ) by push_cast; ring,
        Nat.floor_div_eq_div]
  · exact (normalize16_extremes g i j p h).1

/-- Witness for C2 (amended) at the grid `[[1, 2]]`, pixel value 1. -/
theorem normalize16_truncates_witness :
    gridGetN (normalize16 [[1, 2]]) 0 0 = some (1 * 255 / max16 [[1, 2]]) ∧
    1 * 255 / max16 [[1, 2]] = ⌊(1 : ℚ) / max16 [[1, 2]] * 255⌋₊ :=
  (normalize16_truncates [[1, 2]] 0 0 1 rfl).1 (by decide)

/-! ### Water Classifier — smoothing

Source, `apply_water_smoothing` (lines 16–43):
```
try:
    from scipy import ndimage
    result = water_map.astype(np.float32) / 255.0
    result = ndimage.gaussian_filter(result, sigma=sigma)
    result = (np.clip(result, 0, 1) * 255).astype(np.uint8)
    return result
except ImportError:
    print("Warning: scipy not available, skipping smoothing")
    print("Install with: pip install scipy")
    return water_map
```
`ndimage.gaussian_filter` is a separable correlation with a symmetric
1-D Gaussian kernel along each axis, boundary mode `reflect`
(`(d c b a | a b c d | d c b a)`).  The kernel weights and radius,
which scipy derives from `sigma` in floating point, are abstracted as
parameters `w : ℚ → ℤ → ℚ` and `r : ℚ → ℕ` (sigma-indexed); the
convolution itself, the clip, the rescale and the final truncating
`uint8` cast are modelled exactly over `ℚ`.  Availability of scipy is
the explicit flag `scipyAvailable`; the warning prints are the
`warned` flag of the result. -/

/-- `water_map.astype(np.float32) / 255.0` (line 31). -/
def toUnit (g : Grid) : List (List ℚ) :=
  g.map (fun row => row.map (fun v : ℕ => (v : ℚ) / 255))

/-- scipy boundary mode `reflect`: index `i` folded into `[0, n)` by the
pattern `(d c b a | a b c d | d c b a)`. -/
def reflectIdx (n : ℕ) (i : ℤ) : ℕ :=
  if 0 < n then
    let m := (i % (2 * (n : ℤ))).toNat
    if m < n then m else 2 * n - 1 - m
  else 0

/-- Cell lookup with the out-of-range default 0 (never used: indices are
always reflected into range first). -/
def qGet (g : List (List ℚ)) (i j : ℕ) : ℚ :=
  (g.getD i []).getD j 0

/-- The correlation window `-r, …, r` of a kernel of radius `r`. -/
def offsets (r : ℕ) : List ℤ :=
  (List.range (2 * r + 1)).map (fun k : ℕ => (k : ℤ) - r)

/-- `ndimage.gaussian_filter(result, sigma=sigma)` (line 34): separable
correlation with 1-D weights `w` of radius `r` along both axes, mode
`reflect`. -/
def gaussianFilter (w : ℤ → ℚ) (r : ℕ) (g : List (List ℚ)) :
    List (List ℚ) :=
  (List.range g.length).map (fun i : ℕ =>
    (List.range (g.getD i []).length).map (fun j : ℕ =>
      ((offsets r).map (fun di =>
        ((offsets r).map (fun dj =>
          w di * w dj *
            qGet g (reflectIdx g.length ((i : ℤ) + di))
                   (reflectIdx (g.getD i []).length ((j : ℤ) + dj)))).sum)).sum))

/-- `np.clip(result, 0, 1)` on one cell (line 37). -/
def clip01 (x : ℚ) : ℚ := min (max x 0) 1

/-- `(np.clip(result, 0, 1) * 255).astype(np.uint8)` on one cell
(line 37): clamp, rescale, truncate toward zero (= floor, since the
clamped value is nonnegative). -/
def smoothPost (x : ℚ) : ℕ := ⌊clip01 x * 255⌋₊

/-- The post-processing of line 37 as the spec words it (claim C6):
clamp, rescale, **round to nearest**. -/
def smoothPostSpec (x : ℚ) : ℕ := (round (clip01 x * 255)).toNat

/-- Result of `apply_water_smoothing`: the returned grid, plus whether
the scipy-unavailable warning was printed. -/
structure SmoothResult where
  grid : Grid
  warned : Bool
  deriving DecidableEq

/-- `apply_water_smoothing(water_map, sigma)` (lines 16–43). -/
def apply_water_smoothing (scipyAvailable : Bool) (w : ℚ → ℤ → ℚ)
    (r : ℚ → ℕ) (water_map : Grid) (sigma : ℚ) : SmoothResult :=
  if scipyAvailable then
    { grid := (gaussianFilter (w sigma) (r sigma) (toUnit water_map)).map
        (fun row => row.map smoothPost),
      warned := false }
  else
    { grid := water_map, warned := true }

/-- **C5.** When scipy is unavailable, the smoothing stage returns the
pre-smoothing Binary Water Grid exactly unchanged, sets the warning
side channel, and does not fail (it is a total function). -/
theorem smoothing_unavailable_identity (w : ℚ → ℤ → ℚ) (r : ℚ → ℕ)
    (water_map : Grid) (sigma : ℚ) :
    apply_water_smoothing false w r water_map sigma =
      { grid := water_map, warned := true } :=
  rfl

/-- A smoothing kernel used for concrete evaluations: radius 1, weights
`1/4, 1/2, 1/4` (a normalized symmetric blur of the shape scipy's
truncated Gaussian takes). -/
def wBlur : ℚ → ℤ → ℚ := fun _ d =>
  if d = 0 then 1 / 2 else if d = 1 ∨ d = -1 then 1 / 4 else 0

/-- Radius family for `wBlur`. -/
def rBlur : ℚ → ℕ := fun _ => 1

theorem toUnit_example : toUnit [[0, 255]] = [[0, 1]] := by
  norm_num [toUnit]

set_option maxHeartbeats 1000000 in
theorem gaussianFilter_wBlur_example :
    gaussianFilter (wBlur 2) (rBlur 2) (toUnit [[0, 255]]) =
      [[1 / 4, 3 / 4]] := by
  rw [toUnit_example]
  have hoff : offsets 1 = [-1, 0, 1] := by decide
  have hA : reflectIdx 1 (-1) = 0 := by decide
  have hB : reflectIdx 1 0 = 0 := by decide
  have hC : reflectIdx 1 1 = 0 := by decide
  have hD : reflectIdx 2 (-1) = 0 := by decide
  have hE : reflectIdx 2 0 = 0 := by decide
  have hF : reflectIdx 2 1 = 1 := by decide
  have hG : reflectIdx 2 2 = 1 := by decide
  have hR1 : List.range 1 = [0] := by decide
  have hR2 : List.range 2 = [0, 1] := by decide
  norm_num [gaussianFilter, rBlur, hoff, wBlur, qGet,
    hA, hB, hC, hD, hE, hF, hG, hR1, hR2]

theorem smoothPost_quarter : smoothPost (1 / 4) = 63 := by
  unfold smoothPost clip01
  rw [Nat.floor_eq_iff (by norm_num)]
  norm_num

theorem smoothPost_three_quarters : smoothPost (3 / 4) = 191 := by
  unfold smoothPost clip01
  rw [Nat.floor_eq_iff (by norm_num)]
  norm_num

theorem smoothPostSpec_quarter : smoothPostSpec (1 / 4) = 64 := by
  unfold smoothPostSpec clip01
  norm_num [round_eq]
  decide

theorem smoothPostSpec_three_quarters : smoothPostSpec (3 / 4) = 191 := by
  unfold smoothPostSpec clip01
  norm_num [round_eq]
  decide

/-- **C6, counterexample.** On the one-row grid `[[0, 255]]` the
convolved value at the left cell is `1/4`; `1/4 * 255 = 63.75` is
truncated by the code to 63, while the spec's round-to-nearest gives
64. -/
theorem smoothing_rounds_counterexample :
    (apply_water_smoothing true wBlur rBlur [[0, 255]] 2).grid =
      [[63, 191]] ∧
    (gaussianFilter (wBlur 2) (rBlur 2) (toUnit [[0, 255]])).map
        (fun row => row.map smoothPostSpec) = [[64, 191]] ∧
    smoothPost (1 / 4) = 63 ∧ smoothPostSpec (1 / 4) = 64 := by
  refine ⟨?_, ?_, smoothPost_quarter, smoothPostSpec_quarter⟩
  · show (gaussianFilter (wBlur 2) (rBlur 2) (toUnit [[0, 255]])).map
        (fun row => row.map smoothPost) = [[63, 191]]
    rw [gaussianFilter_wBlur_example]
    simp only [List.map_cons, List.map_nil]
    rw [smoothPost_quarter, smoothPost_three_quarters]
  · rw [gaussianFilter_wBlur_example]
    simp only [List.map_cons, List.map_nil]
    rw [smoothPostSpec_quarter, smoothPostSpec_three_quarters]

theorem clip01_nonneg (v : ℚ) : 0 ≤ clip01 v :=
  le_min (le_max_right v 0) zero_le_one

theorem clip01_le_one (v : ℚ) : clip01 v ≤ 1 :=
  min_le_right _ _

theorem clip01_mul_nonneg (v : ℚ) : 0 ≤ clip01 v * 255 :=
  mul_nonneg (clip01_nonneg v) (by norm_num)

theorem clip01_mul_le (v : ℚ) : clip01 v * 255 ≤ 255 := by
  calc clip01 v * 255 ≤ 1 * 255 :=
        mul_le_mul_of_nonneg_right (clip01_le_one v) (by norm_num)
    _ = 255 := one_mul _

theorem smoothPost_le_255 (v : ℚ) : smoothPost v ≤ 255 := by
  unfold smoothPost
  calc ⌊clip01 v * 255⌋₊ ≤ ⌊(255 : ℚ)⌋₊ := Nat.floor_le_floor (clip01_mul_le v)
    _ = 255 := by norm_num

/-- The one computed value of `apply_water_smoothing` on the grid
`[[0, 255]]` with the `wBlur` kernel, shared by the C6 counterexample
and witness. -/
theorem apply_wBlur_grid :
    (apply_water_smoothing true wBlur rBlur [[0, 255]] 2).grid =
      [[63, 191]] := by
  show (gaussianFilter (wBlur 2) (rBlur 2) (toUnit [[0, 255]])).map
      (fun row => row.map smoothPost) = [[63, 191]]
  rw [gaussianFilter_wBlur_example]
  simp only [List.map_cons, List.map_nil]
  rw [smoothPost_quarter, smoothPost_three_quarters]

/-- **C6, amended.** After convolving the rescaled `[0,1]` grid with the
kernel, the smoothing stage clamps each value to `[0,1]`, rescales to
`[0,255]`, and **truncates toward zero** (the floor — not round to
nearest), storing an 8-bit value: every stored cell is at most 255, the
stored value is `⌊clip(v) * 255⌋`, and clamping pins `v ≤ 0` to 0 and
`v ≥ 1` to 255. -/
theorem smoothing_clamps_and_truncates (w : ℚ → ℤ → ℚ) (r : ℚ → ℕ)
    (g : Grid) (sigma : ℚ) (row : List ℕ) (x : ℕ)
    (hrow : row ∈ (apply_water_smoothing true w r g sigma).grid)
    (hx : x ∈ row) :
    x ≤ 255 ∧
    ∀ v : ℚ, (smoothPost v : ℤ) = ⌊clip01 v * 255⌋ ∧
      (v ≤ 0 → smoothPost v = 0) ∧ (1 ≤ v → smoothPost v = 255) := by
  constructor
  · have hgrid : (apply_water_smoothing true w r g sigma).grid =
        (gaussianFilter (w sigma) (r sigma) (toUnit g)).map
          (fun row => row.map smoothPost) := rfl
    rw [hgrid] at hrow
    obtain ⟨row₀, _, rfl⟩ := List.mem_map.1 hrow
    obtain ⟨v₀, _, rfl⟩ := List.mem_map.1 hx
    exact smoothPost_le_255 v₀
  · intro v
    refine ⟨?_, ?_, ?_⟩
    · unfold smoothPost
      rw [← Int.floor_toNat, Int.toNat_of_nonneg]
      exact Int.floor_nonneg.2 (clip01_mul_nonneg v)
    · intro hv
      unfold smoothPost clip01
      rw [max_eq_right hv, min_eq_left zero_le_one, zero_mul, Nat.floor_zero]
    · intro hv
      unfold smoothPost clip01
      rw [max_eq_left (le_trans zero_le_one hv), min_eq_right hv, one_mul]
      norm_num

/-- Witness for C6 (amended) on the grid `[[0, 255]]` with the `wBlur`
kernel: the stored cell 63 is 8-bit, and the truncation facts hold. -/
theorem smoothing_clamps_and_truncates_witness :
    (63 : ℕ) ≤ 255 ∧
    ∀ v : ℚ, (smoothPost v : ℤ) = ⌊clip01 v * 255⌋ ∧
      (v ≤ 0 → smoothPost v = 0) ∧ (1 ≤ v → smoothPost v = 255) :=
  smoothing_clamps_and_truncates wBlur rBlur [[0, 255]] 2 [63, 191] 63
    (by rw [apply_wBlur_grid]; decide) (by decide)

/-! ### Dimension preservation (claim C9) -/

theorem shape_map_rows (f : α → β) (g : List (List α)) :
    shape (g.map (fun row => row.map f)) = shape g := by
  unfold shape
  rw [List.map_map]
  exact List.map_congr_left (fun row _ => by simp)

theorem range_getD_shape (g : List (List α)) :
    (List.range g.length).map (fun i : ℕ => (g.getD i []).length) =
      g.map List.length := by
  induction g with
  | nil => rfl
  | cons a g ih =>
    simp only [List.length_cons, List.range_succ_eq_map, List.map_cons,
      List.map_map, List.getD_cons_zero, List.map_cons]
    refine congrArg₂ _ rfl ?_
    rw [show ((fun i : ℕ => ((a :: g).getD i []).length) ∘ Nat.succ) =
        (fun i : ℕ => (g.getD i []).length) from funext (fun i => by simp)]
    exact ih

theorem shape_gaussianFilter (w : ℤ → ℚ) (r : ℕ) (g : List (List ℚ)) :
    shape (gaussianFilter w r g) = shape g := by
  unfold shape gaussianFilter
  rw [List.map_map]
  calc (List.range g.length).map
        (List.length ∘ fun i : ℕ =>
          (List.range (g.getD i []).length).map _) =
      (List.range g.length).map (fun i : ℕ => (g.getD i []).length) :=
        List.map_congr_left (fun i _ => by simp)
    _ = g.map List.length := range_getD_shape g

/-- **C9.** Every stage preserves grid dimensions: the normalized
intensity grid, the thresholded Binary Water Grid, and the (optionally
smoothed) Smoothed Water Grid all have the shape (row count and row
lengths) of the source grid. -/
theorem pipeline_preserves_shape (g : Grid) (t : ℤ) (avail : Bool)
    (w : ℚ → ℤ → ℚ) (r : ℚ → ℕ) (sigma : ℚ) :
    shape (normalize16 g) = shape g ∧
    shape (waterMap t g) = shape g ∧
    shape ((apply_water_smoothing avail w r g sigma).grid) = shape g := by
  refine ⟨?_, shape_map_rows (thresholdPixel t) g, ?_⟩
  · unfold normalize16
    split
    · exact shape_map_rows _ g
    · exact shape_map_rows _ g
  · cases avail with
    | false => rfl
    | true =>
      show shape ((gaussianFilter (w sigma) (r sigma) (toUnit g)).map
        (fun row => row.map smoothPost)) = shape g
      rw [shape_map_rows smoothPost, shape_gaussianFilter]
      exact shape_map_rows _ g

/-! ### The single-image transform `generate_water_map` (lines 46–92)

The image is taken already decoded (`Image.open` and the PIL decoder
are outside the model): its `mode` selects the normalization branch of
lines 61–72, and for a multi-channel image the 8-bit output of PIL's
`convert('L')` is the given pixel grid.  Paths are lists of components;
`heightmap_path.parent.parent / "derived-watermaps"` drops the last two
components and appends `derived-watermaps`, and
`output_dir.mkdir(exist_ok=True)` is recorded as the `mkdirPath` of the
result.  The source body contains no `raise` and no parameter
validation, so the `Except` result is always `ok`; `WaterMapError`
carries the error taxonomy the specification names, and the exceptions
PIL itself may raise on unreadable files are outside the model. -/

/-- `img.mode`: 16-bit (`'I'`/`'I;16'`), 8-bit (`'L'`), or
multi-channel (anything else, converted by `img.convert('L')`). -/
inductive ImageMode
  | i16
  | l8
  | multi
  deriving DecidableEq

/-- A decoded input image: its mode and pixel grid (16-bit values for
`i16`, 8-bit values otherwise). -/
structure InputImage where
  mode : ImageMode
  pixels : Grid
  deriving DecidableEq

/-- The normalization branch of lines 61–72. -/
def normalizeImage : ImageMode → Grid → Grid
  | ImageMode.i16, g => normalize16 g
  | ImageMode.l8, g => g
  | ImageMode.multi, g => g

/-- The error taxonomy of the specification; the source constructs
neither value. -/
inductive WaterMapError
  | unreadableImage
  | invalidParameter
  deriving DecidableEq

/-- What `generate_water_map` computes: the grid written to disk, the
resolved output path, the directory created (with `exist_ok=True`) when
the default path rule is used, and whether the scipy warning was
printed. -/
structure GenResult where
  grid : Grid
  outputPath : List String
  mkdirPath : Option (List String)
  warned : Bool
  deriving DecidableEq

/-- `heightmap_path.parent.parent / "derived-watermaps"` (line 84). -/
def defaultOutputDir (input : List String) : List String :=
  input.dropLast.dropLast ++ ["derived-watermaps"]

/-- `generate_water_map(heightmap_path, threshold, output_path, smooth,
sigma)` (lines 46–92). -/
def generate_water_map (img : InputImage) (threshold : ℤ)
    (inputPath : List String) (output_path : Option (List String))
    (smooth : Bool) (sigma : ℚ) (scipyAvailable : Bool)
    (w : ℚ → ℤ → ℚ) (r : ℚ → ℕ) : Except WaterMapError GenResult :=
  let pixels := normalizeImage img.mode img.pixels
  let wm := waterMap threshold pixels
  let sm := if smooth then apply_water_smoothing scipyAvailable w r wm sigma
            else { grid := wm, warned := false }
  match output_path with
  | some p =>
      Except.ok { grid := sm.grid, outputPath := p, mkdirPath := none,
                  warned := sm.warned }
  | none =>
      Except.ok { grid := sm.grid,
                  outputPath := defaultOutputDir inputPath ++
                    [inputPath.getLastD ""],
                  mkdirPath := some (defaultOutputDir inputPath),
                  warned := sm.warned }

/-- **C4, counterexample.** With the invalid configuration
`threshold = 300` (outside `[0, 255]`), `smooth = true`, `sigma = 0`,
the transform does not fail with `InvalidParameterError`: it completes
and writes an output file (all-water, since every 8-bit intensity is
below 300). -/
theorem no_validation_counterexample :
    generate_water_map ⟨ImageMode.l8, [[10]]⟩ 300
        ["maps", "heightmaps", "a.png"] none true 0 false wBlur rBlur =
      Except.ok { grid := [[255]],
                  outputPath := ["maps", "derived-watermaps", "a.png"],
                  mkdirPath := some ["maps", "derived-watermaps"],
                  warned := true } := by
  rfl

/-- **C4, amended.** The transform performs no validation of `threshold`
or `sigma`: for every input, every threshold (also outside `[0, 255]`)
and `sigma = 0` with `smooth = true`, it does not fail — it returns a
result whose output is written. -/
theorem no_parameter_validation (img : InputImage) (threshold : ℤ)
    (inputPath : List String) (output_path : Option (List String))
    (scipyAvailable : Bool) (w : ℚ → ℤ → ℚ) (r : ℚ → ℕ) :
    ∃ res, generate_water_map img threshold inputPath output_path true 0
        scipyAvailable w r = Except.ok res := by
  unfold generate_water_map
  cases output_path with
  | none => exact ⟨_, rfl⟩
  | some p => exact ⟨_, rfl⟩

/-- **C8.** With no explicit output path and the input in
`X/heightmaps/`, the transform targets the sibling
`X/derived-watermaps/` under the identical filename, and creates that
directory (`mkdir(exist_ok=True)`). -/
theorem default_output_path (x : List String) (name : String)
    (img : InputImage) (threshold : ℤ) (smooth : Bool) (sigma : ℚ)
    (scipyAvailable : Bool) (w : ℚ → ℤ → ℚ) (r : ℚ → ℕ) :
    ∃ res, generate_water_map img threshold (x ++ ["heightmaps", name])
        none smooth sigma scipyAvailable w r = Except.ok res ∧
      res.outputPath = x ++ ["derived-watermaps", name] ∧
      res.mkdirPath = some (x ++ ["derived-watermaps"]) := by
  have hdir : defaultOutputDir (x ++ ["heightmaps", name]) =
      x ++ ["derived-watermaps"] := by
    unfold defaultOutputDir
    rw [show x ++ ["heightmaps", name] = (x ++ ["heightmaps"]) ++ [name] by
      simp, List.dropLast_concat, List.dropLast_concat]
  have hlast : (x ++ ["heightmaps", name]).getLastD "" = name := by
    rw [show x ++ ["heightmaps", name] = (x ++ ["heightmaps"]) ++ [name] by
      simp, List.getLastD_concat]
  refine ⟨_, rfl, ?_, ?_⟩
  · show defaultOutputDir (x ++ ["heightmaps", name]) ++
        [(x ++ ["heightmaps", name]).getLastD ""] =
      x ++ ["derived-watermaps", name]
    rw [hdir, hlast]
    simp
  · show some (defaultOutputDir (x ++ ["heightmaps", name])) =
      some (x ++ ["derived-watermaps"])
    rw [hdir]

/-- **C10.** When smoothing is disabled, the transform's result does not
depend on `sigma`: any two sigma values give the same result (grid,
output path, and all). -/
theorem sigma_irrelevant_without_smoothing (img : InputImage)
    (threshold : ℤ) (inputPath : List String)
    (output_path : Option (List String)) (scipyAvailable : Bool)
    (w : ℚ → ℤ → ℚ) (r : ℚ → ℕ) (sigma₁ sigma₂ : ℚ) :
    generate_water_map img threshold inputPath output_path false sigma₁
        scipyAvailable w r =
      generate_water_map img threshold inputPath output_path false sigma₂
        scipyAvailable w r := rfl

end WaterMapGen
